import Mathlib

/-!
Shallow embedding of the InfoSocialEpidemics simulation kernel
(src/isepi.py and src/grahamscheduler.py).

Conventions of the embedding:
* Python floats are modelled as rationals (`ℚ`).
* Fallible Python code (raising `ZeroDivisionError`, `KeyError`,
  `AttributeError`) is modelled with `Except String`.
* The `Stage` enum of src/isepi.py is the closed four-member SIRD
  enumeration that the file itself declares ("Strip down to SIRD").
  Python resolves enum members by attribute lookup at run time, so a
  reference such as `Stage.EXPOSED` in the source is modelled as a
  name lookup (`enumAttr`) that fails for names absent from the enum.
* Randomness: the source draws from two distinct streams — the
  model's seeded stream (`self.random` / `self.model.random`, used by
  the scheduler shuffle and by `random.choice` in `move`) and the
  global scipy/numpy stream (every `bernoulli.rvs` / `poisson.rvs`
  call, which takes no `random_state`).  Each stream is modelled as an
  `RNG`: a function giving the n-th uniform draw in `[0,1)` and a
  function giving the n-th integer draw, plus cursors.  A Bernoulli
  trial with parameter `p` succeeds iff the next uniform draw is `< p`.
* Attributes that the source reads but whose initialisation lies
  outside the four files under src/ (`isolated`,
  `isolated_but_inefficient`, `astep`, the `add_contact_trace`
  method, `earmark`) are modelled as record fields / an event log,
  following the data model of the specification.
-/

namespace ISEpi

/-- The `Stage` enum of src/isepi.py (lines 27-31): stripped down to
SIRD, exactly these four members. -/
inductive Stage where
  | SUSCEPTIBLE
  | INFECTED
  | RECOVERED
  | DECEASED
deriving DecidableEq, Repr

/-- Python-style enum member lookup on `Stage`.  `Stage.NAME` in the
source resolves the attribute `NAME` at run time; a name that is not a
member of the stripped-down enum raises `AttributeError`. -/
def stageMember : String → Option Stage
  | "SUSCEPTIBLE" => some Stage.SUSCEPTIBLE
  | "INFECTED" => some Stage.INFECTED
  | "RECOVERED" => some Stage.RECOVERED
  | "DECEASED" => some Stage.DECEASED
  | _ => none

/-- Evaluates the Python expression `Stage.name`: returns the member,
or raises `AttributeError` when the enum has no such member. -/
def enumAttr (name : String) : Except String Stage :=
  match stageMember name with
  | some s => Except.ok s
  | none => Except.error ("AttributeError: " ++ name)

/-- State of one `ISEpiAgent`.  Fields are the attributes the source
reads or writes on an agent.  `isolated`, `isolated_but_inefficient`
and `astep` are read by src/isepi.py but initialised outside the
excerpt; they are carried as plain fields per the spec's data model. -/
structure AgentState where
  unique_id : Nat
  stage : Stage
  isolated : Bool
  isolated_but_inefficient : Bool
  incubation_time : Nat
  recovery_time : Nat
  dwelling_time : Nat
  curr_incubation : Nat
  curr_recovery : Nat
  curr_dwelling : Nat
  prob_contagion : ℚ
  severity_value : ℚ
  pos : Nat × Nat
  earmark : Nat
  astep : Nat
deriving DecidableEq, Repr

/-- Scalar model configuration read by `ISEpiAgent.step` and `move`. -/
structure ModelCfg where
  rate_inbound : ℚ
  prob_isolation_effective : ℚ
  prob_contagion : ℚ
  avg_dwell : Nat
deriving DecidableEq, Repr

/-- A random stream: `unif n` is the n-th uniform draw in `[0,1)`,
`nat n` the n-th integer draw (used for `poisson.rvs` values and for
`random.choice` indices), with cursors for each. -/
structure RNG where
  unif : Nat → ℚ
  nat : Nat → Nat
  uIdx : Nat
  nIdx : Nat

/-- `bernoulli.rvs p`: succeeds iff the next uniform draw is `< p`. -/
def drawBern (p : ℚ) (r : RNG) : Bool × RNG :=
  (decide (r.unif r.uIdx < p), { r with uIdx := r.uIdx + 1 })

/-- `poisson.rvs lam`: the next integer draw of the stream. -/
def drawPois (r : RNG) : Nat × RNG :=
  (r.nat r.nIdx, { r with nIdx := r.nIdx + 1 })

/-- `self.random.choice`: the next integer draw of the model stream,
used as an index. -/
def drawNat (r : RNG) : Nat × RNG :=
  (r.nat r.nIdx, { r with nIdx := r.nIdx + 1 })

/-- `MultiGrid.get_cell_list_contents([pos])` (mesa): every agent of
the population currently occupying `pos` — the queried agent included. -/
def get_cell_list_contents (pop : List AgentState) (p : Nat × Nat) :
    List AgentState :=
  pop.filter (fun c => c.pos == p)

/-- `ISEpiAgent.is_contagious` (src/isepi.py lines 75-76):
`(self.stage == Stage.EXPOSED) or (self.stage == Stage.ASYMPTOMATIC)`.
Both member lookups are on the stripped-down SIRD enum; `Stage.EXPOSED`
is resolved first and raises `AttributeError`. -/
def is_contagious (s : Stage) : Except String Bool := do
  let e ← enumAttr "EXPOSED"
  let a ← enumAttr "ASYMPTOMATIC"
  Except.ok (s == e || s == a)

/-- `ISEpiAgent.interactants` (src/isepi.py lines 79-88): counts the
occupants of the agent's cell that are not the agent itself and are
either not isolated or scanned by an `isolated_but_inefficient` agent;
DECEASED and RECOVERED agents count nothing. -/
def interactants (pop : List AgentState) (a : AgentState) : Nat :=
  if a.stage ≠ Stage.DECEASED ∧ a.stage ≠ Stage.RECOVERED then
    (get_cell_list_contents pop a.pos).foldl
      (fun count c =>
        if c.unique_id != a.unique_id &&
            (!c.isolated || a.isolated_but_inefficient) then
          count + 1
        else count) 0
  else 0

/-- `count_type` (src/isepi.py lines 176-183): counts the agents at a
given stage by a running-total loop. -/
def count_type (agents : List AgentState) (stage : Stage) : Nat :=
  agents.foldl (fun count a => if a.stage == stage then count + 1 else count) 0

/-- `compute_contacts` (src/isepi.py lines 212-218): sum of
`interactants` over the whole population, divided by its size; the
division raises `ZeroDivisionError` on an empty population. -/
def compute_contacts (pop : List AgentState) : Except String ℚ :=
  let count : Nat := pop.foldl (fun count a => count + interactants pop a) 0
  if pop.length = 0 then Except.error "ZeroDivisionError: division by zero"
  else Except.ok ((count : ℚ) / (pop.length : ℚ))

/-- `compute_eff_reprod_number` (src/isepi.py lines 223-237): one loop
accumulates the INFECTED count and their total incubation time, then
the result is `prob_contagion * avg_contacts * (infected_time/infected)`.
The final division is unguarded: with zero INFECTED agents Python
raises `ZeroDivisionError` (0.0/0.0). -/
def compute_eff_reprod_number (pop : List AgentState) (prob_contagion : ℚ) :
    Except String ℚ :=
  let acc : ℚ × ℚ := pop.foldl
    (fun acc a =>
      if a.stage == Stage.INFECTED then
        (acc.1 + 1, acc.2 + (a.incubation_time : ℚ))
      else acc) (0, 0)
  do
    let avg_contacts ← compute_contacts pop
    if acc.1 = 0 then
      Except.error "ZeroDivisionError: float division by zero"
    else
      Except.ok (prob_contagion * avg_contacts * (acc.2 / acc.1))

/-- `MultiGrid.get_neighborhood(pos, moore=True, include_center=False)`
on the toroidal grid: the 8 Moore-adjacent cells, wrapping at the
edges, the centre excluded. -/
def get_neighborhood (W H : Nat) (p : Nat × Nat) : List (Nat × Nat) :=
  ([(W - 1, H - 1), (W - 1, 0), (W - 1, 1), (0, H - 1),
    (0, 1), (1, H - 1), (1, 0), (1, 1)]).map
    (fun d => ((p.1 + d.1) % W, (p.2 + d.2) % H))

/-- `ISEpiAgent.move` (src/isepi.py lines 147-162): while
`curr_dwelling > 0` decrement it and stay; otherwise pick a Moore
neighbour using `self.random.choice` (the model stream `m`), move
there, and resample `curr_dwelling` with `poisson.rvs` (the global
scipy stream `g`). -/
def move (W H : Nat) (a : AgentState) (g m : RNG) :
    AgentState × RNG × RNG :=
  if a.curr_dwelling > 0 then
    ({ a with curr_dwelling := a.curr_dwelling - 1 }, g, m)
  else
    let possible_steps := get_neighborhood W H a.pos
    let (i, m') := drawNat m
    let new_position := possible_steps.getD (i % possible_steps.length) a.pos
    let (d, g') := drawPois g
    ({ a with pos := new_position, curr_dwelling := d }, g', m')

/-- The cellmates scan of the SUSCEPTIBLE branch (src/isepi.py lines
105-114): walk the cell contents in order; the first occupant whose
`is_contagious()` holds has a contact-trace event registered and makes
the contact count, the loop breaking there.  When the scanning agent is
isolated an extra Bernoulli trial with `1 - prob_isolation_effective`
(global stream) decides whether `isolated_but_inefficient` is set; the
contact counts and the loop breaks in every contagious case.  Each
`is_contagious()` call resolves `Stage.EXPOSED` and so can raise. -/
def scanCellmates (cfg : ModelCfg) :
    List AgentState → AgentState → RNG →
    Except String (AgentState × Bool × List (Nat × Nat) × RNG)
  | [], a, g => Except.ok (a, false, [], g)
  | c :: rest, a, g => do
    let contagious ← is_contagious c.stage
    if contagious then
      let traces := [(c.unique_id, a.unique_id)]
      if a.isolated then
        let (b, g') := drawBern (1 - cfg.prob_isolation_effective) g
        if b then
          Except.ok ({ a with isolated_but_inefficient := true }, true, traces, g')
        else
          Except.ok (a, true, traces, g')
      else
        Except.ok (a, true, traces, g)
    else
      scanCellmates cfg rest a g

/-- Observable outcome of one `ISEpiAgent.step` call: the updated
agent, the contact-trace events registered during the call (pairs of
traced-on id and tracing-argument id), whether the mobility routine
`move()` was invoked, and both random streams. -/
structure StepResult where
  agent : AgentState
  traces : List (Nat × Nat)
  moveAttempted : Bool
  g : RNG
  m : RNG

/-- `ISEpiAgent.step` (src/isepi.py lines 90-145).  A SUSCEPTIBLE
agent first takes the returning-traveler Bernoulli trial with
`rate_inbound`; the following `if/elif` dispatch then re-reads the
(possibly just changed) stage.  The SUSCEPTIBLE branch scans the
cellmates, on a counted contact rolls `prob_contagion`, and calls
`move()` when not isolated.  The INFECTED branch increments
`curr_recovery` and on a `severity_value` Bernoulli success assigns
`Stage.SEVERE` — a lookup on the SIRD enum.  RECOVERED resets
`curr_recovery` and moves; DECEASED does nothing.  The Python `else:
sys.exit(...)` branch has no counterpart: the four-member match is
exhaustive.  Finally `astep` is incremented.  `g` is the global scipy
stream, `m` the model stream. -/
def step (cfg : ModelCfg) (W H : Nat) (cellmates : List AgentState)
    (a0 : AgentState) (g0 m0 : RNG) : Except String StepResult := do
  let tv : AgentState × RNG :=
    if a0.stage == Stage.SUSCEPTIBLE then
      let (b, g') := drawBern cfg.rate_inbound g0
      ((if b then { a0 with stage := Stage.INFECTED } else a0), g')
    else (a0, g0)
  let a1 := tv.1
  let g1 := tv.2
  match a1.stage with
  | Stage.SUSCEPTIBLE => do
    let (a2, infected_contact, traces, g2) ← scanCellmates cfg cellmates a1 g1
    let ct : AgentState × RNG :=
      if infected_contact then
        let (b, g') := drawBern a2.prob_contagion g2
        ((if b then { a2 with stage := Stage.INFECTED } else a2), g')
      else (a2, g2)
    let a3 := ct.1
    let g3 := ct.2
    if a3.isolated then
      Except.ok ⟨{ a3 with astep := a3.astep + 1 }, traces, false, g3, m0⟩
    else
      let (a4, g4, m1) := move W H a3 g3 m0
      Except.ok ⟨{ a4 with astep := a4.astep + 1 }, traces, true, g4, m1⟩
  | Stage.INFECTED =>
    if a1.curr_incubation + a1.curr_recovery <
        a1.incubation_time + a1.recovery_time then
      let a2 := { a1 with curr_recovery := a1.curr_recovery + 1 }
      let (b, g2) := drawBern a2.severity_value g1
      if b then do
        let sev ← enumAttr "SEVERE"
        Except.ok ⟨{ a2 with stage := sev, astep := a2.astep + 1 }, [], false, g2, m0⟩
      else
        Except.ok ⟨{ a2 with astep := a2.astep + 1 }, [], false, g2, m0⟩
    else
      Except.ok ⟨{ a1 with stage := Stage.RECOVERED, astep := a1.astep + 1 },
        [], false, g1, m0⟩
  | Stage.RECOVERED =>
    let a2 := { a1 with curr_recovery := 0 }
    let (a3, g2, m1) := move W H a2 g1 m0
    Except.ok ⟨{ a3 with astep := a3.astep + 1 }, [], true, g2, m1⟩
  | Stage.DECEASED =>
    Except.ok ⟨{ a1 with astep := a1.astep + 1 }, [], false, g1, m0⟩

/-- N steps of a single-agent model (the agent is always the sole
occupant of its cell, so `get_cell_list_contents` returns exactly
`[a]`), recording the stage after each step — the agent's stage
trajectory.  `g` is the global scipy stream, `m` the model stream. -/
def runAgent1 (cfg : ModelCfg) (W H : Nat) :
    Nat → AgentState → RNG → RNG → Except String (List Stage)
  | 0, _, _, _ => Except.ok []
  | n + 1, a, g, m =>
    match step cfg W H [a] a g m with
    | Except.error e => Except.error e
    | Except.ok r =>
      match runAgent1 cfg W H n r.agent r.g r.m with
      | Except.error e => Except.error e
      | Except.ok tl => Except.ok (r.agent.stage :: tl)

/-- State of a `GrahamActivation` scheduler
(src/grahamscheduler.py): the registered agents as
`(unique_id, earmark)` pairs in registration order (the `_agents`
dict preserves insertion order), the persisting `stages` dict as a
list of buckets indexed by partition, the configured partition count
and the two counters. -/
structure GrahamActivation where
  agents : List (Nat × Nat)
  stages : List (List Nat)
  partitions : Nat
  steps : Nat
  time : Nat
deriving DecidableEq, Repr

/-- `self.stages[k].append(x)`: append `x` to the k-th bucket. -/
def addToBucket (st : List (List Nat)) (k : Nat) (x : Nat) :
    List (List Nat) :=
  st.set k (st.getD k [] ++ [x])

/-- The bucket-filling loop of `GrahamActivation.step` (lines 37-38):
`self.stages[agent.earmark].append(agent.unique_id)` for every
registered agent in order.  An earmark that is not one of the freshly
created keys `0..P-1` raises `KeyError` — at step time. -/
def buildStages (P : Nat) :
    List (Nat × Nat) → List (List Nat) → Except String (List (List Nat))
  | [], st => Except.ok st
  | ae :: rest, st =>
    if ae.2 < P then buildStages P rest (addToBucket st ae.2 ae.1)
    else Except.error "KeyError"

/-- The per-partition shuffles of `GrahamActivation.step` (line 41):
`self.model.random.shuffle(self.stages[earmark])` for each key in
ascending order, consuming the model stream `r` sequentially.  The
shuffle itself is a parameter of the embedding. -/
def shuffleStages (shuffle : RNG → List Nat → List Nat × RNG) :
    RNG → List (List Nat) → List (List Nat) × RNG
  | r, [] => ([], r)
  | r, b :: bs =>
    let (b', r') := shuffle r b
    let (bs', r'') := shuffleStages shuffle r' bs
    (b' :: bs', r'')

/-- `GrahamActivation.step` (src/grahamscheduler.py lines 29-47):
reset the buckets `0..P-1` to fresh empty lists, group every
registered agent by earmark, shuffle each bucket with the model
stream in ascending key order, invoke each listed agent's update in
that order, and finally increment `steps` and `time`.  The returned
list is the sequence of `unique_id`s in the exact order in which
`self._agents[unique_id].step()` is invoked. -/
def grahamStep (shuffle : RNG → List Nat → List Nat × RNG)
    (s : GrahamActivation) (r : RNG) :
    Except String (List Nat × GrahamActivation × RNG) := do
  let st ← buildStages s.partitions s.agents
    (List.replicate s.partitions [])
  let (st', r') := shuffleStages shuffle r st
  Except.ok (st'.flatten,
    { s with stages := st', steps := s.steps + 1, time := s.time + 1 }, r')

/-- Plain Python attribute assignment `agent.earmark = v`.  Nothing in
src/ defines a property or validator for `earmark`; assignment always
succeeds, whatever the value. -/
def set_earmark (a : AgentState) (v : Nat) : AgentState :=
  { a with earmark := v }

/-- Number of INFECTED agents, written declaratively (the loop of
`compute_eff_reprod_number` is proved equal to this). -/
def infectedCount (pop : List AgentState) : Nat :=
  (pop.filter (fun a => a.stage == Stage.INFECTED)).length

/-- Total incubation time of the INFECTED agents, written
declaratively. -/
def infectedIncubationSum (pop : List AgentState) : ℚ :=
  ((pop.filter (fun a => a.stage == Stage.INFECTED)).map
    (fun a => (a.incubation_time : ℚ))).sum

/-- Declarative rendering of what `interactants` actually counts: the
occupants of the agent's cell other than itself that are not isolated,
unless the scanning agent carries `isolated_but_inefficient`. -/
def interactants_spec (pop : List AgentState) (a : AgentState) : Nat :=
  if a.stage = Stage.DECEASED ∨ a.stage = Stage.RECOVERED then 0
  else
    (get_cell_list_contents pop a.pos).countP
      (fun c => c.unique_id != a.unique_id &&
        (!c.isolated || a.isolated_but_inefficient))

/-- Definition following the words of claim C8, not the source: each
live agent contributes the number of occupants of its cell excluding
itself, with no further filtering of which occupants are counted;
the total is divided by the population size. -/
def avg_contacts_unfiltered (pop : List AgentState) : Except String ℚ :=
  if pop.length = 0 then Except.error "ZeroDivisionError: division by zero"
  else
    Except.ok
      (((pop.map (fun a =>
        if a.stage = Stage.DECEASED ∨ a.stage = Stage.RECOVERED then (0 : ℚ)
        else ((get_cell_list_contents pop a.pos).countP
          (fun c => c.unique_id != a.unique_id) : ℚ))).sum) /
        (pop.length : ℚ))

/-- The ids of the registered agents with a given earmark, in
registration order (declarative form of the scheduler's buckets). -/
def idsAt (p : Nat) (agents : List (Nat × Nat)) : List Nat :=
  (agents.filter (fun ae => ae.2 == p)).map Prod.fst

/-- Whether an `Except` value is a success (observation helper). -/
def exceptIsOk {ε α : Type} : Except ε α → Bool
  | Except.ok _ => true
  | Except.error _ => false

/-! ### Concrete fixtures used by witnesses and counterexamples -/

/-- A non-isolated SUSCEPTIBLE agent with the default demo attributes. -/
def baseAgent : AgentState :=
  { unique_id := 0, stage := Stage.SUSCEPTIBLE, isolated := false,
    isolated_but_inefficient := false, incubation_time := 5,
    recovery_time := 5, dwelling_time := 3, curr_incubation := 0,
    curr_recovery := 0, curr_dwelling := 0, prob_contagion := 3/100,
    severity_value := 0, pos := (0, 0), earmark := 0, astep := 0 }

/-- An isolated SUSCEPTIBLE agent sharing `baseAgent`'s cell. -/
def isoAgent : AgentState := { baseAgent with unique_id := 1, isolated := true }

/-- INFECTED agent with incubation time 10. -/
def infA : AgentState :=
  { baseAgent with stage := Stage.INFECTED, incubation_time := 10 }

/-- INFECTED agent with incubation time 12. -/
def infB : AgentState :=
  { baseAgent with unique_id := 1, stage := Stage.INFECTED, incubation_time := 12 }

/-- INFECTED agent with incubation time 14. -/
def infC : AgentState :=
  { baseAgent with unique_id := 2, stage := Stage.INFECTED, incubation_time := 14 }

/-- INFECTED agent whose severity Bernoulli trial always fires. -/
def sevAgent : AgentState :=
  { baseAgent with stage := Stage.INFECTED, severity_value := 1 }

/-- The rational 1/2 in normal form, so that kernel reduction of
comparisons against it never needs gcd normalization. -/
def half : ℚ := { num := 1, den := 2 }

/-- The rational 3/4 in normal form: a uniform draw inside `[0,1)`
that a Bernoulli trial with parameter 1/2 rejects. -/
def threeQuarters : ℚ := { num := 3, den := 4 }

/-- Demo configuration.  The returning-traveler probability 1/2 lies
strictly inside (0,1): a `bernoulli.rvs(1/2)` call can realizably
return either outcome, and the uniform streams below decide it with
draws 0 and 3/4, both inside `[0,1)`. -/
def cfgDemo : ModelCfg :=
  { rate_inbound := half, prob_isolation_effective := 1,
    prob_contagion := 3/100, avg_dwell := 3 }

/-- Random stream whose uniform draws are all 0 (every Bernoulli trial
with positive parameter succeeds). -/
def rngZero : RNG := { unif := fun _ => 0, nat := fun _ => 0, uIdx := 0, nIdx := 0 }

/-- Random stream whose uniform draws are all 3/4 — inside `[0,1)`, so
every draw is realizable; a Bernoulli trial with parameter 1/2
fails against it. -/
def rngHigh : RNG := { rngZero with unif := fun _ => threeQuarters }

/-- The identity shuffle: a permutation, consuming no randomness. -/
def idShuffle : RNG → List Nat → List Nat × RNG := fun r l => (l, r)

/-- A two-partition scheduler with three registered agents. -/
def schedDemo : GrahamActivation :=
  { agents := [(0, 0), (1, 1), (2, 0)], stages := [], partitions := 2,
    steps := 0, time := 0 }

/-- A two-partition scheduler holding an agent whose earmark 2 is out
of range. -/
def schedBad : GrahamActivation := { schedDemo with agents := [(0, 2)] }

/-! ### Helper lemmas -/

theorem foldl_count_acc {α : Type} (p : α → Bool) (l : List α) (n : Nat) :
    l.foldl (fun c a => if p a then c + 1 else c) n = n + l.countP p := by
  induction l generalizing n with
  | nil => simp
  | cons a t ih =>
    simp only [List.foldl_cons, List.countP_cons, ih]
    cases h : p a <;> simp [h] <;> omega

theorem count_type_eq_countP (agents : List AgentState) (s : Stage) :
    count_type agents s = agents.countP (fun a => a.stage == s) := by
  show agents.foldl (fun c a => if a.stage == s then c + 1 else c) 0 = _
  rw [foldl_count_acc (fun a => a.stage == s) agents 0, Nat.zero_add]

theorem foldl_add_acc {α : Type} (f : α → Nat) (l : List α) (n : Nat) :
    l.foldl (fun c a => c + f a) n = n + (l.map f).sum := by
  induction l generalizing n with
  | nil => simp
  | cons a t ih => simp [ih]; omega

theorem infected_fold_eq (pop : List AgentState) (x y : ℚ) :
    pop.foldl (fun acc a =>
        if a.stage == Stage.INFECTED then
          (acc.1 + 1, acc.2 + (a.incubation_time : ℚ))
        else acc) (x, y) =
      (x + (infectedCount pop : ℚ), y + infectedIncubationSum pop) := by
  induction pop generalizing x y with
  | nil => simp [infectedCount, infectedIncubationSum]
  | cons a t ih =>
    simp only [List.foldl_cons, infectedCount, infectedIncubationSum,
      List.filter_cons]
    cases h : a.stage == Stage.INFECTED with
    | false =>
      simp only [h, Bool.false_eq_true, if_false, reduceIte]
      simpa [infectedCount, infectedIncubationSum] using ih x y
    | true =>
      simp only [h, if_true, reduceIte]
      rw [ih]
      simp [infectedCount, infectedIncubationSum]
      constructor <;> push_cast <;> ring

/-! ### Claim C5 -/

/-- C5: at every step, the per-stage counts computed by `count_type`
over the four stages an agent can occupy sum to the total agent count:
no agent is double-counted and none falls outside the counted stages. -/
theorem stage_counts_partition (agents : List AgentState) :
    count_type agents Stage.SUSCEPTIBLE + count_type agents Stage.INFECTED +
      count_type agents Stage.RECOVERED + count_type agents Stage.DECEASED =
      agents.length := by
  simp only [count_type_eq_countP]
  induction agents with
  | nil => rfl
  | cons a t ih =>
    simp only [List.countP_cons, List.length_cons]
    cases a.stage <;> simp <;> omega

/-! ### Claim C1 -/

/-- C1: with a nonempty population containing no INFECTED agent,
`compute_eff_reprod_number` is not guarded: it reaches the division
`infected_time/infected` with `infected = 0` and raises
`ZeroDivisionError` instead of returning an undefined/NaN sentinel. -/
theorem rt_zero_infected_division_fault (pop : List AgentState) (pc : ℚ)
    (hne : pop.length ≠ 0) (hni : ∀ a ∈ pop, a.stage ≠ Stage.INFECTED) :
    compute_eff_reprod_number pop pc =
      Except.error "ZeroDivisionError: float division by zero" := by
  have hcnt : infectedCount pop = 0 := by
    simp only [infectedCount, List.length_eq_zero, List.filter_eq_nil_iff]
    intro a ha
    simpa using hni a ha
  simp only [compute_eff_reprod_number, infected_fold_eq, hcnt,
    Nat.cast_zero, add_zero, zero_add, compute_contacts, hne, if_false,
    reduceIte]
  rfl

/-- Witness for C1: a one-agent SUSCEPTIBLE population triggers the
division fault. -/
theorem rt_zero_infected_division_fault_w :
    ([baseAgent] : List AgentState).length ≠ 0 ∧
    (∀ a ∈ ([baseAgent] : List AgentState), a.stage ≠ Stage.INFECTED) ∧
    compute_eff_reprod_number [baseAgent] (3/100) =
      Except.error "ZeroDivisionError: float division by zero" :=
  ⟨by decide, by decide,
    rt_zero_infected_division_fault [baseAgent] (3/100) (by decide) (by decide)⟩

/-! ### Claim C6 -/

/-- C6: with a nonzero INFECTED count, the effective reproduction
number equals `prob_contagion * average_contacts * (sum of
incubation_time over INFECTED agents / count of INFECTED agents)`. -/
theorem rt_formula (pop : List AgentState) (pc : ℚ)
    (h : infectedCount pop ≠ 0) :
    compute_eff_reprod_number pop pc =
      (compute_contacts pop).map (fun avg =>
        pc * avg * (infectedIncubationSum pop / (infectedCount pop : ℚ))) := by
  have hne : pop.length ≠ 0 := by
    intro h0
    apply h
    have : pop = [] := List.length_eq_zero.mp h0
    subst this
    rfl
  have hq : ((infectedCount pop : ℚ)) ≠ 0 := Nat.cast_ne_zero.mpr h
  simp only [compute_eff_reprod_number, infected_fold_eq, zero_add,
    compute_contacts, hne, if_false, reduceIte]
  simp [Except.map, hq]
  rfl

/-- Witness for C6: three INFECTED agents sharing one cell with
incubation times 10, 12, 14 and `prob_contagion = 0.03` give average
contacts 2 and `Rt = 0.03 * 2 * 12 = 0.72 = 18/25`. -/
theorem rt_formula_w :
    infectedCount [infA, infB, infC] ≠ 0 ∧
    compute_eff_reprod_number [infA, infB, infC] (3/100) =
      Except.ok (18/25) := by
  refine ⟨by decide, ?_⟩
  rw [rt_formula [infA, infB, infC] (3/100) (by decide)]
  have hc : compute_contacts [infA, infB, infC] = Except.ok 2 := by
    show Except.ok ((6 : ℚ) / 3) = Except.ok 2
    norm_num
  rw [hc]
  show Except.ok ((3 : ℚ)/100 * 2 * ((10 + (12 + (14 + 0)))/3)) = Except.ok (18/25)
  norm_num

/-! ### Claim C8 -/

theorem interactants_eq_spec (pop : List AgentState) (a : AgentState) :
    interactants pop a = interactants_spec pop a := by
  unfold interactants interactants_spec
  by_cases hD : a.stage = Stage.DECEASED ∨ a.stage = Stage.RECOVERED
  · have hC : ¬(a.stage ≠ Stage.DECEASED ∧ a.stage ≠ Stage.RECOVERED) := by
      tauto
    rw [if_neg hC, if_pos hD]
  · have hC : a.stage ≠ Stage.DECEASED ∧ a.stage ≠ Stage.RECOVERED := by
      tauto
    rw [if_pos hC, if_neg hD]
    simpa using foldl_count_acc
      (fun c => c.unique_id != a.unique_id &&
        (!c.isolated || a.isolated_but_inefficient))
      (get_cell_list_contents pop a.pos) 0

/-- Counterexample to C8 as stated: with a non-isolated susceptible
agent and an isolated one sharing a cell, the code's average-contacts
metric gives 1/2 while the claim's unfiltered formula gives 1 — the
occupant scan does filter out isolated occupants. -/
theorem compute_contacts_filters_occupants :
    compute_contacts [baseAgent, isoAgent] = Except.ok (1/2) ∧
    avg_contacts_unfiltered [baseAgent, isoAgent] = Except.ok 1 ∧
    compute_contacts [baseAgent, isoAgent] ≠
      avg_contacts_unfiltered [baseAgent, isoAgent] := by
  have h1 : compute_contacts [baseAgent, isoAgent] = Except.ok (1/2) := by
    show Except.ok (((1 : Nat) : ℚ) / ((2 : Nat) : ℚ)) = Except.ok (1/2)
    norm_num
  have h2 : avg_contacts_unfiltered [baseAgent, isoAgent] = Except.ok 1 := by
    show Except.ok ((((1 : Nat) : ℚ) + (((1 : Nat) : ℚ) + 0)) / ((2 : Nat) : ℚ)) =
      Except.ok 1
    norm_num
  refine ⟨h1, h2, ?_⟩
  rw [h1, h2]
  intro h
  have := Except.ok.inj h
  norm_num at this

/-- C8 (amended): the average-contacts metric equals the sum over all
agents of the filtered occupant count — occupants other than the agent
itself that are not isolated, unless the scanning agent is flagged
`isolated_but_inefficient`; DECEASED/RECOVERED agents contribute zero —
divided by the population size. -/
theorem compute_contacts_amended (pop : List AgentState)
    (h : pop.length ≠ 0) :
    compute_contacts pop =
      Except.ok (((pop.map (fun a => (interactants_spec pop a : ℚ))).sum) /
        (pop.length : ℚ)) := by
  unfold compute_contacts
  rw [if_neg h]
  have h1 : pop.foldl (fun c a => c + interactants pop a) 0 =
      (pop.map (fun a => interactants_spec pop a)).sum := by
    rw [foldl_add_acc, Nat.zero_add]
    congr 1
    exact List.map_congr_left (fun a _ => interactants_eq_spec pop a)
  rw [h1, Nat.cast_list_sum, List.map_map]
  rfl

/-- Witness for C8's amended theorem at the two-agent population. -/
theorem compute_contacts_amended_w :
    ([baseAgent, isoAgent] : List AgentState).length ≠ 0 ∧
    compute_contacts [baseAgent, isoAgent] =
      Except.ok ((([baseAgent, isoAgent].map
          (fun a => (interactants_spec [baseAgent, isoAgent] a : ℚ))).sum) /
        (([baseAgent, isoAgent] : List AgentState).length : ℚ)) :=
  ⟨by decide, compute_contacts_amended [baseAgent, isoAgent] (by decide)⟩

/-! ### Claim C3 -/

/-- C3: the contagiousness test never identifies an INFECTED occupant —
`is_contagious` resolves `Stage.EXPOSED`, which the stripped-down SIRD
enum does not have, so every call raises `AttributeError`, and the
cellmates scan of a surviving SUSCEPTIBLE agent aborts on its first
occupant instead of registering a contact and rolling `prob_contagion`. -/
theorem is_contagious_always_raises (s : Stage) (cfg : ModelCfg)
    (c : AgentState) (rest : List AgentState) (a : AgentState) (g : RNG) :
    is_contagious s = Except.error "AttributeError: EXPOSED" ∧
    scanCellmates cfg (c :: rest) a g =
      Except.error "AttributeError: EXPOSED" :=
  ⟨rfl, rfl⟩

/-! ### Claim C7 -/

/-- C7: SEVERE is not a recognized state of the stripped-down machine —
when the severity Bernoulli trial of an INFECTED agent fires, the
assignment `self.stage = Stage.SEVERE` looks up a member the SIRD enum
does not have and the step aborts with `AttributeError` (and the step
dispatch has no SEVERE branch at all, only the fatal unknown-stage
exit). -/
theorem severe_escalation_unrecognized :
    step cfgDemo 5 5 [] sevAgent rngZero rngZero =
      Except.error "AttributeError: SEVERE" := by
  rfl

/-! ### Claim C9 -/

theorem scan_cons_error (cfg : ModelCfg) (c : AgentState)
    (rest : List AgentState) (a : AgentState) (g : RNG) :
    scanCellmates cfg (c :: rest) a g =
      Except.error "AttributeError: EXPOSED" := rfl

theorem map_eq_of_isOk {ε α β : Type} (e : Except ε α) (f : α → β) (v : β)
    (hok : exceptIsOk e = true) (h : ∀ r, e = Except.ok r → f r = v) :
    e.map f = Except.ok v := by
  cases e with
  | error _ => simp [exceptIsOk] at hok
  | ok r => simpa [Except.map] using h r rfl

/-- Counterexample to C9 as stated: a non-isolated agent that begins
the step SUSCEPTIBLE and is infected by the returning-traveler trial
does not attempt a move — it falls through to the INFECTED branch of
the same step (already incrementing `curr_recovery`). -/
theorem traveler_infected_skips_move :
    (step cfgDemo 5 5 [baseAgent] baseAgent rngZero rngZero).map
      (fun r => (r.agent.stage, r.moveAttempted, r.agent.curr_recovery)) =
      Except.ok (Stage.INFECTED, false, 1) := rfl

/-- C9 (amended): a non-isolated agent beginning the step SUSCEPTIBLE
attempts a move only if it is still SUSCEPTIBLE after the
returning-traveler trial; a traveler-infected agent executes the
INFECTED branch that same step and never invokes the mobility routine,
and a surviving agent aborts in the contact scan (the `is_contagious`
AttributeError) before the move whenever its cell is occupied — which
it always is, by the agent itself. -/
theorem step_move_amended (cfg : ModelCfg) (W H : Nat)
    (cellmates : List AgentState) (a : AgentState) (g m : RNG)
    (hS : a.stage = Stage.SUSCEPTIBLE) (hIso : a.isolated = false) :
    (g.unif g.uIdx < cfg.rate_inbound →
      ∀ r, step cfg W H cellmates a g m = Except.ok r →
        r.moveAttempted = false) ∧
    (¬ g.unif g.uIdx < cfg.rate_inbound → cellmates ≠ [] →
      step cfg W H cellmates a g m =
        Except.error "AttributeError: EXPOSED") := by
  constructor
  · intro hlt r hr
    have hb : decide (g.unif g.uIdx < cfg.rate_inbound) = true :=
      decide_eq_true hlt
    simp only [step, hS, beq_self_eq_true, if_true, drawBern, hb] at hr
    split at hr
    · split at hr
      · simp only [bind, Except.bind] at hr
        exact Except.noConfusion hr
      · cases hr
        rfl
    · cases hr
      rfl
  · intro hge hcm
    have hb : decide (g.unif g.uIdx < cfg.rate_inbound) = false :=
      decide_eq_false hge
    obtain ⟨c, rest, rfl⟩ : ∃ c rest, cellmates = c :: rest := by
      cases cellmates with
      | nil => exact absurd rfl hcm
      | cons c rest => exact ⟨c, rest, rfl⟩
    simp only [step, hS, beq_self_eq_true, if_true, drawBern, hb,
      Bool.false_eq_true, if_false, scan_cons_error]
    rfl

/-- Witness for C9's amended theorem: the traveler-infected run has
`moveAttempted = false`; the surviving run aborts in the scan. -/
theorem step_move_amended_w :
    (step cfgDemo 5 5 [baseAgent] baseAgent rngZero rngZero).map
      StepResult.moveAttempted = Except.ok false ∧
    step cfgDemo 5 5 [baseAgent] baseAgent rngHigh rngZero =
      Except.error "AttributeError: EXPOSED" :=
  ⟨map_eq_of_isOk _ _ false rfl
      ((step_move_amended cfgDemo 5 5 [baseAgent] baseAgent rngZero rngZero
        rfl rfl).1 (by decide)),
    (step_move_amended cfgDemo 5 5 [baseAgent] baseAgent rngHigh rngZero
      rfl rfl).2 (by decide) (by simp)⟩

/-! ### Claim C4 -/

/-- Counterexample to C4 as stated: the traveler-trial probability 1/2
lies strictly inside (0,1), and the two global scipy streams draw 0
and 3/4 — both realizable uniform draws inside `[0,1)`, each a
possible outcome of a `bernoulli.rvs(1/2)` call.  Two runs with
identical configuration and identical model stream but these two
global streams produce different stage trajectories: the agent-level
`bernoulli.rvs`/`poisson.rvs` draws are not taken from the model's
seeded stream. -/
theorem seeded_trajectories_differ :
    (0 < cfgDemo.rate_inbound ∧ cfgDemo.rate_inbound < 1) ∧
    ((0 : ℚ) ≤ rngZero.unif 0 ∧ rngZero.unif 0 < 1 ∧
      (0 : ℚ) ≤ rngHigh.unif 0 ∧ rngHigh.unif 0 < 1) ∧
    runAgent1 cfgDemo 5 5 1 baseAgent rngZero rngZero =
      Except.ok [Stage.INFECTED] ∧
    runAgent1 cfgDemo 5 5 1 baseAgent rngHigh rngZero =
      Except.error "AttributeError: EXPOSED" ∧
    runAgent1 cfgDemo 5 5 1 baseAgent rngZero rngZero ≠
      runAgent1 cfgDemo 5 5 1 baseAgent rngHigh rngZero := by
  have e1 : runAgent1 cfgDemo 5 5 1 baseAgent rngZero rngZero =
      Except.ok [Stage.INFECTED] := rfl
  have e2 : runAgent1 cfgDemo 5 5 1 baseAgent rngHigh rngZero =
      Except.error "AttributeError: EXPOSED" := rfl
  refine ⟨⟨by decide, by decide⟩, ⟨by decide, by decide, by decide, by decide⟩,
    e1, e2, ?_⟩
  rw [e1, e2]
  intro h
  exact Except.noConfusion h

/-- C4 (amended): a run is reproducible exactly when both random
sources are fixed — the model's seeded stream (scheduler shuffles and
move destinations) and the global scipy stream (all Bernoulli/Poisson
draws); equal streams give identical stage trajectories. -/
theorem run_deterministic (cfg : ModelCfg) (W H N : Nat) (a : AgentState)
    (g g' m m' : RNG) (hg : g = g') (hm : m = m') :
    runAgent1 cfg W H N a g m = runAgent1 cfg W H N a g' m' := by
  subst hg
  subst hm
  rfl

/-- Witness for C4's amended theorem at a concrete three-step run. -/
theorem run_deterministic_w :
    runAgent1 cfgDemo 5 5 3 baseAgent rngZero rngZero =
      runAgent1 cfgDemo 5 5 3 baseAgent rngZero rngZero :=
  run_deterministic cfgDemo 5 5 3 baseAgent rngZero rngZero rngZero rngZero
    rfl rfl

/-! ### Claim C2: the partitioned scheduler -/

theorem range_map_getD (st : List (List Nat)) :
    (List.range st.length).map (fun p => st.getD p []) = st := by
  induction st with
  | nil => rfl
  | cons b bs ih =>
    rw [List.length_cons, List.range_succ_eq_map, List.map_cons, List.map_map]
    have h2 : List.map ((fun p => (b :: bs).getD p []) ∘ Nat.succ)
        (List.range bs.length) = bs := by
      rw [show ((fun p => (b :: bs).getD p []) ∘ Nat.succ) =
          (fun p => bs.getD p []) from funext fun p => List.getD_cons_succ]
      exact ih
    rw [h2]
    rfl

theorem getD_addToBucket (st : List (List Nat)) (k x p : Nat)
    (hk : k < st.length) :
    (addToBucket st k x).getD p [] =
      if k = p then st.getD k [] ++ [x] else st.getD p [] := by
  unfold addToBucket
  rw [List.getD_eq_getElem?_getD, List.getElem?_set]
  by_cases h : k = p
  · subst h
    rw [if_pos rfl, if_pos hk, if_pos rfl]
    rfl
  · rw [if_neg h, if_neg h, ← List.getD_eq_getElem?_getD]

theorem idsAt_cons (p : Nat) (ae : Nat × Nat) (rest : List (Nat × Nat)) :
    idsAt p (ae :: rest) =
      if ae.2 = p then ae.1 :: idsAt p rest else idsAt p rest := by
  unfold idsAt
  rw [List.filter_cons]
  by_cases h : ae.2 = p
  · simp [beq_iff_eq, h]
  · simp [beq_iff_eq, h]

theorem mem_idsAt (z p : Nat) (agents : List (Nat × Nat)) :
    z ∈ idsAt p agents ↔ ∃ ae ∈ agents, ae.1 = z ∧ ae.2 = p := by
  unfold idsAt
  constructor
  · intro hz
    obtain ⟨a, ha, rfl⟩ := List.mem_map.mp hz
    obtain ⟨hmem, hp⟩ := List.mem_filter.mp ha
    exact ⟨a, hmem, rfl, by simpa using hp⟩
  · rintro ⟨a, hmem, h1, h2⟩
    exact List.mem_map.mpr ⟨a, List.mem_filter.mpr ⟨hmem, by simpa using h2⟩, h1⟩

theorem buildStages_ok (P : Nat) (agents : List (Nat × Nat))
    (hP : ∀ ae ∈ agents, ae.2 < P) :
    ∀ st : List (List Nat), st.length = P →
      buildStages P agents st =
        Except.ok ((List.range P).map
          (fun p => st.getD p [] ++ idsAt p agents)) := by
  induction agents with
  | nil =>
    intro st hlen
    simp only [buildStages, idsAt, List.filter_nil, List.map_nil,
      List.append_nil]
    rw [← hlen, range_map_getD]
  | cons ae rest ih =>
    intro st hlen
    have hae : ae.2 < P := hP ae (List.mem_cons_self _ _)
    have hrest : ∀ b ∈ rest, b.2 < P :=
      fun b hb => hP b (List.mem_cons_of_mem _ hb)
    show (if ae.2 < P then buildStages P rest (addToBucket st ae.2 ae.1)
      else Except.error "KeyError") = _
    rw [if_pos hae,
      ih hrest (addToBucket st ae.2 ae.1)
        (by rw [addToBucket, List.length_set, hlen])]
    congr 1
    apply List.map_congr_left
    intro p hp
    rw [getD_addToBucket st ae.2 ae.1 p (by rw [hlen]; exact hae),
      idsAt_cons]
    by_cases hep : ae.2 = p
    · subst hep
      rw [if_pos rfl, if_pos rfl, List.append_assoc, List.singleton_append]
    · rw [if_neg hep, if_neg hep]

theorem shuffleStages_cons (shuffle : RNG → List Nat → List Nat × RNG)
    (r : RNG) (b : List Nat) (bs : List (List Nat)) :
    shuffleStages shuffle r (b :: bs) =
      ((shuffle r b).1 :: (shuffleStages shuffle (shuffle r b).2 bs).1,
        (shuffleStages shuffle (shuffle r b).2 bs).2) := rfl

theorem shuffleStages_spec (shuffle : RNG → List Nat → List Nat × RNG)
    (hsh : ∀ r l, ((shuffle r l).1).Perm l) :
    ∀ (st : List (List Nat)) (r : RNG),
      ((shuffleStages shuffle r st).1).length = st.length ∧
      (∀ p : Nat,
        (((shuffleStages shuffle r st).1).getD p []).Perm (st.getD p [])) ∧
      (((shuffleStages shuffle r st).1).flatten).Perm st.flatten := by
  intro st
  induction st with
  | nil => exact fun r => ⟨rfl, fun p => List.Perm.refl _, List.Perm.refl _⟩
  | cons b bs ih =>
    intro r
    obtain ⟨hlen, hp, hfl⟩ := ih (shuffle r b).2
    refine ⟨?_, ?_, ?_⟩
    · rw [shuffleStages_cons]
      simp [hlen]
    · intro p
      cases p with
      | zero => simpa [shuffleStages_cons] using hsh r b
      | succ q => simpa [shuffleStages_cons] using hp q
    · rw [shuffleStages_cons]
      simpa using (hsh r b).append hfl

theorem flatten_cons_at (k x : Nat) (f : Nat → List Nat) :
    ∀ l : List Nat, l.Nodup → k ∈ l →
      ((l.map (fun p => if k = p then x :: f p else f p)).flatten).Perm
        (x :: (l.map f).flatten) := by
  intro l
  induction l with
  | nil => intro _ hk; cases hk
  | cons p ps ih =>
    intro hnd hk
    rw [List.map_cons, List.map_cons, List.flatten_cons, List.flatten_cons]
    by_cases hkp : k = p
    · subst hkp
      rw [if_pos rfl]
      have hnotin : k ∉ ps := (List.nodup_cons.mp hnd).1
      have hmc : ∀ q ∈ ps, (if k = q then x :: f q else f q) = f q := by
        intro q hq
        have hne : k ≠ q := by
          intro he
          rw [he] at hnotin
          exact hnotin hq
        rw [if_neg hne]
      rw [List.map_congr_left hmc, List.cons_append]
    · rw [if_neg hkp]
      have hk' : k ∈ ps := by
        cases List.mem_cons.mp hk with
        | inl h => exact absurd h hkp
        | inr h => exact h
      exact (List.Perm.append_left (f p)
        (ih (List.nodup_cons.mp hnd).2 hk')).trans List.perm_middle

theorem buckets_flatten_perm (P : Nat) :
    ∀ agents : List (Nat × Nat), (∀ ae ∈ agents, ae.2 < P) →
      (((List.range P).map (fun p => idsAt p agents)).flatten).Perm
        (agents.map Prod.fst) := by
  intro agents
  induction agents with
  | nil =>
    intro _
    simp [idsAt]
  | cons ae rest ih =>
    intro h
    have h1 : ae.2 < P := h ae (List.mem_cons_self _ _)
    have h2 : ∀ b ∈ rest, b.2 < P :=
      fun b hb => h b (List.mem_cons_of_mem _ hb)
    rw [List.map_congr_left
      (fun p _ => idsAt_cons p ae rest :
        ∀ p ∈ List.range P, idsAt p (ae :: rest) =
          if ae.2 = p then ae.1 :: idsAt p rest else idsAt p rest),
      List.map_cons]
    exact (flatten_cons_at ae.2 ae.1 (fun p => idsAt p rest) (List.range P)
      (List.nodup_range P) (List.mem_range.mpr h1)).trans
      (List.Perm.cons ae.1 (ih h2))

theorem flatten_indexOf_lt (x y : Nat) :
    ∀ (bs : List (List Nat)) (i j : Nat), i < j →
      x ∈ bs.getD i [] → y ∈ bs.getD j [] →
      (∀ q, q ≤ i → y ∉ bs.getD q []) →
      bs.flatten.indexOf x < bs.flatten.indexOf y := by
  intro bs
  induction bs with
  | nil =>
    intro i j _ hx _ _
    simp at hx
  | cons c cs ih =>
    intro i j hij hx hy hq
    rw [List.flatten_cons]
    have hyc : y ∉ c := by simpa using hq 0 (Nat.zero_le i)
    cases i with
    | zero =>
      have hxc : x ∈ c := by simpa using hx
      rw [List.indexOf_append_of_mem hxc, List.indexOf_append_of_not_mem hyc]
      have h1 : List.indexOf x c < c.length := List.indexOf_lt_length.mpr hxc
      omega
    | succ i' =>
      cases j with
      | zero => omega
      | succ j' =>
        have hx' : x ∈ cs.getD i' [] := by simpa using hx
        have hy' : y ∈ cs.getD j' [] := by simpa using hy
        have hq' : ∀ q, q ≤ i' → y ∉ cs.getD q [] := by
          intro q hq2
          simpa using hq (q + 1) (Nat.succ_le_succ hq2)
        have hrec := ih i' j' (Nat.lt_of_succ_lt_succ hij) hx' hy' hq'
        by_cases hxc : x ∈ c
        · rw [List.indexOf_append_of_mem hxc,
            List.indexOf_append_of_not_mem hyc]
          have h1 : List.indexOf x c < c.length :=
            List.indexOf_lt_length.mpr hxc
          omega
        · rw [List.indexOf_append_of_not_mem hxc,
            List.indexOf_append_of_not_mem hyc]
          omega

theorem nodup_fst_inj (l : List (Nat × Nat))
    (hnd : (l.map Prod.fst).Nodup) :
    ∀ u ∈ l, ∀ v ∈ l, u.1 = v.1 → u = v := by
  induction l with
  | nil => intro u hu; cases hu
  | cons w t ih =>
    intro u hu v hv he
    rw [List.map_cons, List.nodup_cons] at hnd
    obtain ⟨hw, ht⟩ := hnd
    cases List.mem_cons.mp hu with
    | inl h1 =>
      cases List.mem_cons.mp hv with
      | inl h2 => rw [h1, h2]
      | inr h2 =>
        refine absurd (List.mem_map.mpr ⟨v, h2, ?_⟩) hw
        rw [← h1]
        exact he.symm
    | inr h1 =>
      cases List.mem_cons.mp hv with
      | inl h2 =>
        refine absurd (List.mem_map.mpr ⟨u, h1, ?_⟩) hw
        rw [← h2]
        exact he
      | inr h2 => exact ih ht u h1 v h2 he

theorem getD_range_map (P : Nat) (f : Nat → List Nat) (p : Nat)
    (hp : p < P) :
    ((List.range P).map f).getD p [] = f p := by
  rw [List.getD_eq_getElem?_getD, List.getElem?_map, List.getElem?_range hp]
  rfl

/-- C2: one call of the partitioned scheduler's `step()` — with every
earmark inside `[0, P)`, a permutation-valued shuffle, and distinct
agent ids — rebuilds the buckets fresh, invokes every registered
agent's update exactly once (the execution order is a permutation of
the registered ids), increments the step counter, and runs every agent
of a lower partition strictly before every agent of a higher one. -/
theorem graham_step_spec (shuffle : RNG → List Nat → List Nat × RNG)
    (s : GrahamActivation) (r : RNG)
    (hP : ∀ ae ∈ s.agents, ae.2 < s.partitions)
    (hsh : ∀ r l, ((shuffle r l).1).Perm l)
    (hnd : (s.agents.map Prod.fst).Nodup) :
    ∃ order s' r',
      grahamStep shuffle s r = Except.ok (order, s', r') ∧
      order.Perm (s.agents.map Prod.fst) ∧
      s'.steps = s.steps + 1 ∧
      s'.time = s.time + 1 ∧
      (∀ a ∈ s.agents, ∀ b ∈ s.agents, a.2 < b.2 →
        order.indexOf a.1 < order.indexOf b.1) := by
  have hrep : ∀ p : Nat,
      (List.replicate s.partitions ([] : List Nat)).getD p [] = [] := by
    intro p
    rw [List.getD_eq_getElem?_getD, List.getElem?_replicate]
    by_cases h : p < s.partitions <;> simp [h]
  have hbuild : buildStages s.partitions s.agents
      (List.replicate s.partitions []) =
      Except.ok ((List.range s.partitions).map
        (fun p => idsAt p s.agents)) := by
    rw [buildStages_ok s.partitions s.agents hP
      (List.replicate s.partitions []) (List.length_replicate _ _)]
    congr 1
    apply List.map_congr_left
    intro p _
    rw [hrep p, List.nil_append]
  obtain ⟨hlen, hp, hfl⟩ := shuffleStages_spec shuffle hsh
    ((List.range s.partitions).map (fun p => idsAt p s.agents)) r
  refine ⟨((shuffleStages shuffle r
      ((List.range s.partitions).map (fun p => idsAt p s.agents))).1).flatten,
    { s with
        stages := (shuffleStages shuffle r
          ((List.range s.partitions).map (fun p => idsAt p s.agents))).1,
        steps := s.steps + 1, time := s.time + 1 },
    (shuffleStages shuffle r
      ((List.range s.partitions).map (fun p => idsAt p s.agents))).2,
    ?_, ?_, rfl, rfl, ?_⟩
  · show (do
      let st ← buildStages s.partitions s.agents
        (List.replicate s.partitions [])
      let sh := shuffleStages shuffle r st
      Except.ok (sh.1.flatten,
        { s with stages := sh.1, steps := s.steps + 1, time := s.time + 1 },
        sh.2)) = _
    rw [hbuild]
    rfl
  · exact hfl.trans (buckets_flatten_perm s.partitions s.agents hP)
  · intro a ha b hb hab
    have hbP : b.2 < s.partitions := hP b hb
    have haP : a.2 < s.partitions := lt_trans hab hbP
    apply flatten_indexOf_lt a.1 b.1 _ a.2 b.2 hab
    · refine ((hp a.2).mem_iff).mpr ?_
      rw [getD_range_map s.partitions _ a.2 haP]
      exact (mem_idsAt a.1 a.2 s.agents).mpr ⟨a, ha, rfl, rfl⟩
    · refine ((hp b.2).mem_iff).mpr ?_
      rw [getD_range_map s.partitions _ b.2 hbP]
      exact (mem_idsAt b.1 b.2 s.agents).mpr ⟨b, hb, rfl, rfl⟩
    · intro q hq hyq
      have hqP : q < s.partitions := lt_of_le_of_lt hq haP
      have hyq' : b.1 ∈ idsAt q s.agents := by
        have := ((hp q).mem_iff).mp hyq
        rwa [getD_range_map s.partitions _ q hqP] at this
      obtain ⟨ae, hmem, h1, h2⟩ := (mem_idsAt b.1 q s.agents).mp hyq'
      have hae : ae = b := nodup_fst_inj s.agents hnd ae hmem b hb h1
      rw [hae] at h2
      omega

/-- Witness for C2 at a concrete two-partition scheduler with three
agents and the identity shuffle. -/
theorem graham_step_spec_w :
    ∃ order s' r',
      grahamStep idShuffle schedDemo rngZero = Except.ok (order, s', r') ∧
      order.Perm (schedDemo.agents.map Prod.fst) ∧
      s'.steps = schedDemo.steps + 1 ∧
      s'.time = schedDemo.time + 1 ∧
      (∀ a ∈ schedDemo.agents, ∀ b ∈ schedDemo.agents, a.2 < b.2 →
        order.indexOf a.1 < order.indexOf b.1) :=
  graham_step_spec idShuffle schedDemo rngZero (by decide)
    (fun _ l => List.Perm.refl l) (by decide)

/-! ### Claim C10 -/

theorem buildStages_out_of_range (P : Nat) :
    ∀ (agents : List (Nat × Nat)) (st : List (List Nat))
      (ae : Nat × Nat), ae ∈ agents → P ≤ ae.2 →
      buildStages P agents st = Except.error "KeyError" := by
  intro agents
  induction agents with
  | nil =>
    intro st ae hmem _
    cases hmem
  | cons b rest ih =>
    intro st ae hmem hout
    show (if b.2 < P then buildStages P rest (addToBucket st b.2 b.1)
      else Except.error "KeyError") = _
    by_cases hb : b.2 < P
    · rw [if_pos hb]
      cases List.mem_cons.mp hmem with
      | inl h =>
        rw [h] at hout
        omega
      | inr h => exact ih (addToBucket st b.2 b.1) ae h hout
    · rw [if_neg hb]

/-- C10: an out-of-range earmark does not fail at assignment time —
plain attribute assignment accepts any value — and instead surfaces
only when the scheduler's `step()` buckets the agents, as a `KeyError`. -/
theorem earmark_fails_at_step_not_assignment (a : AgentState) (v : Nat)
    (shuffle : RNG → List Nat → List Nat × RNG) (s : GrahamActivation)
    (r : RNG) (ae : Nat × Nat) (hmem : ae ∈ s.agents)
    (hout : s.partitions ≤ ae.2) :
    (set_earmark a v).earmark = v ∧
    grahamStep shuffle s r = Except.error "KeyError" := by
  refine ⟨rfl, ?_⟩
  show (do
    let st ← buildStages s.partitions s.agents
      (List.replicate s.partitions [])
    let sh := shuffleStages shuffle r st
    Except.ok (sh.1.flatten,
      { s with stages := sh.1, steps := s.steps + 1, time := s.time + 1 },
      sh.2)) = _
  rw [buildStages_out_of_range s.partitions s.agents _ ae hmem hout]
  rfl

/-- Witness for C10: a two-partition scheduler holding an agent with
earmark 2 accepts the assignment and fails with `KeyError` at step
time. -/
theorem earmark_fails_at_step_not_assignment_w :
    (set_earmark baseAgent 2).earmark = 2 ∧
    grahamStep idShuffle schedBad rngZero = Except.error "KeyError" :=
  earmark_fails_at_step_not_assignment baseAgent 2 idShuffle schedBad
    rngZero (0, 2) (by decide) (by decide)

end ISEpi
